import Mathlib

/-!
# Verification of `carryOverUserData` (flow-peacock)

A shallow embedding of `src/components/carryOverUserData.ts`: the tool that
fetches a player's progression data from the official game backend and merges
it into the local replacement server's user-profile record.

External collaborators (HTTP transport, session store, versioned default
profile, contract controller, challenge registry, state-machine evaluator,
feature flags, date parsing) are modelled as explicit parameters, matching
the spec's treatment of them as opaque services.  JavaScript objects whose
contents the code copies verbatim are modelled by an opaque `Json` value;
JavaScript objects and `Map`s that the code reads or writes key-by-key are
modelled as association lists with JS `Map.set` / property-assignment
semantics (`setKV`: replace in place if present, append otherwise).
-/

namespace Peacock

/-- Dynamic JSON-ish values, for payload parts the merger copies verbatim
or treats as opaque blobs (state-machine contexts, staging objects, ...). -/
inductive Json where
  | null : Json
  | bool (b : Bool) : Json
  | num (n : Int) : Json
  | str (s : String) : Json
  | arr (elems : List Json) : Json
  | obj (fields : List (String × Json)) : Json
deriving Repr

/-- Property lookup in an association list (JS object / `Map.get`);
`none` models JavaScript `undefined`. -/
def getKV {α : Type} : List (String × α) → String → Option α
  | [], _ => none
  | (k', v') :: rest, k => if k' = k then some v' else getKV rest k

/-- JS `Map.set` / property assignment: overwrite the entry in place when the
key is present (keeping insertion order), append a new entry otherwise. -/
def setKV {α : Type} : List (String × α) → String → α → List (String × α)
  | [], k, v => [(k, v)]
  | (k', v') :: rest, k, v =>
      if k' = k then (k, v) :: rest else (k', v') :: setKV rest k v

/-- JS property access on an arbitrary dynamic value: only objects have
(own) properties; everything else yields `undefined`. -/
def jsGet (j : Json) (k : String) : Option Json :=
  match j with
  | Json.obj fields => getKV fields k
  | _ => none

theorem getKV_setKV_self {α : Type} (m : List (String × α)) (k : String) (v : α) :
    getKV (setKV m k v) k = some v := by
  induction m with
  | nil => simp [setKV, getKV]
  | cons p rest ih =>
      obtain ⟨k', v'⟩ := p
      by_cases h : k' = k
      · simp [setKV, h, getKV]
      · simp [setKV, h, getKV, ih]

theorem getKV_setKV_ne {α : Type} (m : List (String × α)) (k k' : String) (v : α)
    (h : k ≠ k') : getKV (setKV m k v) k' = getKV m k' := by
  induction m with
  | nil => simp [setKV, getKV, h]
  | cons p rest ih =>
      obtain ⟨k₀, v₀⟩ := p
      by_cases h0 : k₀ = k
      · subst h0
        simp [setKV, getKV, h]
      · by_cases h1 : k₀ = k'
        · simp [setKV, h0, getKV, h1, Ne.symm h]
        · simp [setKV, h0, getKV, h1, ih]

theorem isSome_getKV_setKV {α : Type} (m : List (String × α)) (k k' : String) (v : α)
    (hk : (getKV m k).isSome) :
    (getKV (setKV m k v) k').isSome = (getKV m k').isSome := by
  by_cases h : k = k'
  · subst h
    simp [getKV_setKV_self, hk]
  · simp [getKV_setKV_ne m k k' v h]

/-- Generic "last write wins" fact about folding `setKV` over a list:
looking up `k` afterwards finds the value of the *last* element written
at key `k`, and falls back to the initial map when no element has key `k`. -/
theorem getKV_foldl_setKV {α β : Type} (key : α → String) (val : α → β)
    (l : List α) (init : List (String × β)) (k : String) :
    getKV (l.foldl (fun m x => setKV m (key x) (val x)) init) k =
      ((l.reverse.find? (fun x => key x = k)).map val).or (getKV init k) := by
  induction l generalizing init with
  | nil => simp
  | cons x xs ih =>
      simp only [List.foldl_cons, List.reverse_cons, List.find?_append]
      rw [ih]
      cases hfind : List.find? (fun x => decide (key x = k)) xs.reverse with
      | some y => simp [hfind]
      | none =>
          by_cases hx : key x = k
          · simp [hfind, hx, List.find?, getKV_setKV_self]
          · simp [hfind, hx, List.find?, getKV_setKV_ne _ _ _ _ hx]

/-- In a list whose keys (under `key`) are distinct, the last occurrence of
the key of a member is that member itself. -/
theorem find?_reverse_of_nodup {α : Type} (key : α → String) (l : List α)
    (hnd : (l.map key).Nodup) (a : α) (ha : a ∈ l) :
    l.reverse.find? (fun x => key x = key a) = some a := by
  induction l with
  | nil => cases ha
  | cons x xs ih =>
      simp only [List.map_cons, List.nodup_cons] at hnd
      simp only [List.reverse_cons, List.find?_append]
      rcases List.mem_cons.mp ha with rfl | hmem
      · have hnone : List.find? (fun y => decide (key y = key a)) xs.reverse = none := by
          apply List.find?_eq_none.mpr
          intro y hy
          simp only [decide_eq_true_eq]
          intro hkey
          exact hnd.1 (hkey ▸ List.mem_map_of_mem key (List.mem_reverse.mp hy))
        simp [hnone, List.find?]
      · rw [ih hnd.2 hmem]
        simp

/-! ## Remote payload shapes (the TS interfaces of `carryOverUserData.ts`) -/

/-- The twelve identity/account keys that `carryOverUserData` copies verbatim
from `GetProfile` into the user profile (`Id`, `LinkedAccounts`, `ETag`,
`Gamertag`, `DevId`, `SteamId`, `StadiaId`, `EpicId`, `NintendoId`,
`XboxLiveId`, `PSNAccountId`, `PSNOnlineId`).  Their contents are opaque. -/
structure IdentityFields where
  Id : Json
  LinkedAccounts : Json
  ETag : Json
  Gamertag : Json
  DevId : Json
  SteamId : Json
  StadiaId : Json
  EpicId : Json
  NintendoId : Json
  XboxLiveId : Json
  PSNAccountId : Json
  PSNOnlineId : Json
deriving Repr

/-- `GetProfileBody.Extensions.gamepersistentdata.menudata`. -/
structure OfficialMenudata where
  destinations : Json
  planning : Json
  newunlockables : Json
deriving Repr

/-- `GetProfileBody.Extensions.gamepersistentdata`. -/
structure OfficialGamePersistentData where
  __stats : Json
  prologue : Json
  menudata : OfficialMenudata
  PersistentBool : List (String × Json)
  IsFSPUser : Json
  VideoShown : Json
  EpilogueSeen : Json
deriving Repr

/-- `GetProfileBody.Extensions.progression.PlayerProfileXP`: the merger only
reads the two previously-seen fields out of it. -/
structure OfficialPlayerProfileXP where
  PreviouslySeenTotal : Json
  PreviouslySeenStaging : Json
deriving Repr

/-- `GetProfileBody.Extensions.progression`.  (`Locations`/`Unlockables`
are never read by the merger and are omitted from the embedding.) -/
structure OfficialProgression where
  XPGain : Json
  secondsToNextDrop : Json
  secondsElapsed : Json
  LastCompletedChallenge : Json
  LastScore : Json
  TimeDropDelta : Json
  PlayerProfileXP : OfficialPlayerProfileXP
deriving Repr

/-- `GetProfileBody.Extensions`. -/
structure OfficialExtensions where
  achievements : Json
  friends : Json
  gameclient : Json
  gamepersistentdata : OfficialGamePersistentData
  opportunityprogression : List (String × String)
  progression : OfficialProgression
deriving Repr

/-- `GetProfileBody`: the response of `ProfileService/GetProfile`. -/
structure GetProfileBody where
  identity : IdentityFields
  Extensions : OfficialExtensions
deriving Repr

/-- `GetPlayerProfileBody.data.SubLocationData[i].CompletionData` (the
fields the merger reads). -/
structure CompletionData where
  Id : String
  XP : Int
  Level : Int
deriving Repr, DecidableEq

/-- One entry of `GetPlayerProfileBody.data.SubLocationData`. -/
structure SubLocationEntry where
  CompletionData : CompletionData
deriving Repr, DecidableEq

/-- One entry of `PlayerProfileXp.Seasons[i].Locations`. -/
structure SeasonLocation where
  LocationId : String
  Xp : Int
  ActionXp : Int
deriving Repr, DecidableEq

/-- One entry of `GetPlayerProfileBody.data.PlayerProfileXp.Seasons`. -/
structure Season where
  Locations : List SeasonLocation
deriving Repr, DecidableEq

/-- `GetPlayerProfileBody.data.PlayerProfileXp`. -/
structure PlayerProfileXpBody where
  Total : Int
  Level : Int
  Seasons : List Season
deriving Repr, DecidableEq

/-- `GetPlayerProfileBody.data`: the payload of the PlayerProfile page. -/
structure PlayerProfileData where
  SubLocationData : List SubLocationEntry
  PlayerProfileXp : PlayerProfileXpBody
deriving Repr, DecidableEq

/-- `GetPlayerProfileBody` (the page wrapper: `template` is unused). -/
structure PlayerProfileBody where
  data : PlayerProfileData
deriving Repr, DecidableEq

/-- `Hits[i].UserCentricContract.Contract.Metadata` (only `PublicId` is
read). -/
structure ContractMetadata where
  PublicId : String
deriving Repr, DecidableEq

/-- `Hits[i].UserCentricContract.Contract` (a `MissionManifest`; only its
metadata's public id is read). -/
structure ContractManifest where
  Metadata : ContractMetadata
deriving Repr, DecidableEq

/-- `Hits[i].UserCentricContract.Data`. -/
structure HitContractData where
  EscalationCompletedLevels : Int
  EscalationTotalLevels : Int
  EscalationCompleted : Bool
  LastPlayedAt : String
  Completed : Bool
deriving Repr, DecidableEq

/-- `Hits[i].UserCentricContract`. -/
structure UserCentricContract where
  Data : HitContractData
  Contract : ContractManifest
deriving Repr, DecidableEq

/-- One hit of a `HitsCategoryBody` page. -/
structure Hit where
  Id : String
  UserCentricContract : UserCentricContract
deriving Repr, DecidableEq

/-- `HitsCategoryBody.data.Data` (the fields the pagination loop reads). -/
structure HitsData where
  Hits : List Hit
  HasMore : Bool
deriving Repr, DecidableEq

/-- `HitsCategoryBody.data`. -/
structure HitsCategoryData where
  Data : HitsData
deriving Repr, DecidableEq

/-- `HitsCategoryBody`. -/
structure HitsCategoryBody where
  data : HitsCategoryData
deriving Repr, DecidableEq

/-- `challenge.Challenge` of a `GetActiveChallengesAndProgression` entry
(only `Id` is read, as the challenge-map key). -/
structure ChallengeRef where
  Id : String
deriving Repr

/-- `challenge.Progression` of a fetched challenge. -/
structure ChallengeProgressionServer where
  ChallengeId : String
  Completed : Bool
  CompletedAt : Option String
  State : Json
deriving Repr

/-- One element of the `GetActiveChallengesAndProgression` response array
(a `CompiledChallengeRuntimeData`). -/
structure FetchedChallenge where
  Challenge : ChallengeRef
  Progression : ChallengeProgressionServer
deriving Repr

/-- The `GetForPlay2` response body: `{ContractSessionId,
ContractProgressionData}`. -/
structure CPDResponse where
  ContractSessionId : String
  ContractProgressionData : List (String × Json)
deriving Repr

/-! ## Target profile shapes (the `UserProfile` fields the merger writes) -/

/-- A per-(sub)location progression record of the local profile (the fields
the merger writes; `LastCompletedChallenge` and staging are untouched). -/
structure ProgressionData where
  Xp : Int
  Level : Int
  PreviouslySeenXp : Int
deriving Repr, DecidableEq

/-- A value of `Extensions.progression.Locations`: either a flat progression
record (carrying an `Xp` field directly — `Object.hasOwn(location, "Xp")`),
or a mapping of sub-keys to progression records (the special game mode's
shape, `{[p: string]: ProgressionData}`). -/
inductive LocationRecord where
  | flat (p : ProgressionData) : LocationRecord
  | nested (subs : List (String × ProgressionData)) : LocationRecord
deriving Repr, DecidableEq

/-- One entry of the rebuilt `PlayerProfileXP.Sublocations` list. -/
structure SublocationXp where
  Location : String
  Xp : Int
  ActionXp : Int
deriving Repr, DecidableEq

/-- `Extensions.progression.PlayerProfileXP` of the local profile. -/
structure TargetPlayerProfileXP where
  Total : Int
  PreviouslySeenTotal : Json
  ProfileLevel : Int
  PreviouslySeenStaging : Json
  Sublocations : List SublocationXp
deriving Repr

/-- `Extensions.progression` of the local profile. -/
structure TargetProgression where
  XPGain : Json
  secondsToNextDrop : Json
  secondsElapsed : Json
  LastCompletedChallenge : Json
  LastScore : Json
  TimeDropDelta : Json
  Locations : List (String × LocationRecord)
  PlayerProfileXP : TargetPlayerProfileXP
deriving Repr

/-- `Extensions.gamepersistentdata.menudata` of the local profile; the
merger adds a `persistentdatacomponent` object next to the copied fields. -/
structure TargetMenudata where
  destinations : Json
  planning : Json
  newunlockables : Json
  persistentdatacomponent : Json
deriving Repr

/-- `Extensions.gamepersistentdata` of the local profile. -/
structure TargetGamePersistentData where
  __stats : Json
  prologue : Json
  menudata : TargetMenudata
  PersistentBool : List (String × Json)
  IsFSPUser : Json
  VideoShown : Json
  EpilogueSeen : Json
deriving Repr

/-- One value of `Extensions.ChallengeProgression`. -/
structure ChallengeEntry where
  Ticked : Bool
  Completed : Bool
  CurrentState : Json
  State : Json
deriving Repr

/-- One value of `Extensions.PeacockPlayedContracts`. -/
structure PlayedContractEntry where
  LastPlayedAt : Int
  Completed : Bool
  IsEscalation : Bool
deriving Repr, DecidableEq

/-- One value of `Extensions.CPD`: the raw `GetForPlay2` object together
with the `ContractProgressionData` keys the merger assigns onto it. -/
structure CPDEntry where
  base : CPDResponse
  flattened : List (String × Json)
deriving Repr

/-- The `Extensions` record of the local profile (the fields written by
`carryOverUserData`). -/
structure TargetExtensions where
  gameclient : Json
  progression : TargetProgression
  gamepersistentdata : TargetGamePersistentData
  opportunityprogression : List (String × Bool)
  friends : Json
  achievements : Json
  ChallengeProgression : List (String × ChallengeEntry)
  PeacockEscalations : List (String × Int)
  PeacockCompletedEscalations : List String
  PeacockPlayedContracts : List (String × PlayedContractEntry)
  PeacockFavoriteContracts : List String
  CPD : List (String × CPDEntry)
deriving Repr

/-- The local `UserProfile` record being populated (the versioned default
loaded from the config store, mutated by the merger). -/
structure UserProfile where
  identity : IdentityFields
  Extensions : TargetExtensions
deriving Repr

/-! ## Remote fetchers

The session store's client (`OfficialServerAuth._useService`) is external:
it performs one HTTP call and produces a status code and a parsed body.  The
transport (axios) rejects on a non-success status — visible in the source in
`requestGetForPlay2`'s `.catch((e) => e.response)`, which recovers the
response object to inspect its status.  We model one call as an
`HttpResponse` supplied by the environment, and `useService` as the
transport-level success check.  A carryover run is thus a function of the
responses the server would give (`RemoteResponses`), which is what lets the
fetch pipeline be stated and proved as a pure function. -/

/-- One HTTP response: status code and parsed body. -/
structure HttpResponse (α : Type) where
  status : Nat
  data : α
deriving Repr, DecidableEq

/-- The transport: yields the response on success (status 200), rejects
with an error otherwise. -/
def useService {α : Type} (r : HttpResponse α) : Except String (HttpResponse α) :=
  if r.status = 200 then Except.ok r
  else Except.error ("Request failed with status " ++ toString r.status ++ ".")

/-- `requestGetProfile`: fetch `ProfileService/GetProfile`, check the
status, return the body. -/
def requestGetProfile (r : HttpResponse GetProfileBody) : Except String GetProfileBody :=
  match useService r with
  | Except.error e => Except.error e
  | Except.ok resp =>
      if resp.status ≠ 200 then
        Except.error "Error getting user profile from official server."
      else Except.ok resp.data

/-- `requestPlayerProfile`: fetch the PlayerProfile page, check the status,
return `response.data.data`. -/
def requestPlayerProfile (r : HttpResponse PlayerProfileBody) : Except String PlayerProfileData :=
  match useService r with
  | Except.error e => Except.error e
  | Except.ok resp =>
      if resp.status ≠ 200 then
        Except.error "Error getting user profile from official server."
      else Except.ok resp.data.data

/-- Insert one location's challenge array into the accumulated challenge
map, keyed by `challenge.Challenge.Id` (`challenges.set(...)`). -/
def insertChallenges (m : List (String × FetchedChallenge)) (cs : List FetchedChallenge) :
    List (String × FetchedChallenge) :=
  cs.foldl (fun m c => setKV m c.Challenge.Id c) m

/-- `requestChallenges`: one `GetActiveChallengesAndProgression` request per
mission location (each pair is the request's `contractId` together with the
server's response); a non-200 response fails the whole fetch naming that
contract id, otherwise every returned challenge is written into one map,
later writes overwriting earlier ones. -/
def requestChallenges :
    List (String × HttpResponse (List FetchedChallenge)) →
    List (String × FetchedChallenge) →
    Except String (List (String × FetchedChallenge))
  | [], m => Except.ok m
  | (contractId, resp) :: rest, m =>
      if resp.status ≠ 200 then
        Except.error ("Error getting map challenges from official server. (" ++
          contractId ++ ")")
      else requestChallenges rest (insertChallenges m resp.data)

/-- `requestHitsCategory`: fetch one page of a hits category; the code
reads `.data.data` with no status check of its own (the transport's
rejection is the only failure path). -/
def requestHitsCategory (r : HttpResponse HitsCategoryBody) : Except String HitsCategoryData :=
  match useService r with
  | Except.error e => Except.error e
  | Except.ok resp => Except.ok resp.data.data

/-- `requestHitsCategoryAll`: the pagination loop.  The input list is the
sequence of page responses the server yields for pages `0, 1, 2, ...`; the
loop accumulates `Data.Hits` and keeps requesting while `Data.HasMore`. -/
def requestHitsCategoryAll :
    List (HttpResponse HitsCategoryBody) → Except String (List Hit)
  | [] => Except.ok []
  | r :: rest =>
      match requestHitsCategory r with
      | Except.error e => Except.error e
      | Except.ok page =>
          if page.Data.HasMore then
            match requestHitsCategoryAll rest with
            | Except.error e => Except.error e
            | Except.ok tail => Except.ok (page.Data.Hits ++ tail)
          else Except.ok page.Data.Hits

/-- The prefix of the supplied page-response sequence that the pagination
loop actually consumes: the first page always, later pages only while each
predecessor succeeded and signalled `HasMore`. -/
def consumedPages :
    List (HttpResponse HitsCategoryBody) → List (HttpResponse HitsCategoryBody)
  | [] => []
  | r :: rest =>
      r :: (if r.status = 200 ∧ r.data.data.Data.HasMore then consumedPages rest else [])

/-- `requestGetForPlay2`: fetch `ContractsService/GetForPlay2` for one
mission id; `.catch((e) => e.response)` recovers the transport rejection,
then a non-200 status throws the descriptive freelancer-CPD error. -/
def requestGetForPlay2 (r : HttpResponse CPDResponse) : Except String CPDResponse :=
  let response := match useService r with
    | Except.error _ => r
    | Except.ok resp => resp
  if response.status ≠ 200 then
    Except.error ("Error getting freelancer CPD from official server." ++
      " (" ++ toString response.status ++ ")")
  else Except.ok response.data

/-- The one mission id probed for contract-progression data. -/
def freelancerId : String := "f8ec92c2-4fa2-471e-ae08-545480c746ee"

/-- The value stored under the freelancer mission id: the `GetForPlay2`
result when the probe succeeded, `undefined` when its failure was caught
and logged (`.catch((e) => ... return undefined)`). -/
def cpdSlot (r : HttpResponse CPDResponse) : Option CPDResponse :=
  match requestGetForPlay2 r with
  | Except.ok d => some d
  | Except.error _ => none

/-- The hit-category types fetched by `getOfficialResponses`, in request
order. -/
def hitCategoryTypes : List String :=
  ["ContractAttack", "Arcade", "MyHistory", "MyContracts", "MyPlaylist"]

/-- The responses the official server would give over one carryover run:
one response per endpoint, one per challenge location (paired with the
request's contract id), and one page sequence per hit category. -/
structure RemoteResponses where
  userFound : Bool
  getProfile : HttpResponse GetProfileBody
  playerProfile : HttpResponse PlayerProfileBody
  challenges : List (String × HttpResponse (List FetchedChallenge))
  contractAttack : List (HttpResponse HitsCategoryBody)
  arcade : List (HttpResponse HitsCategoryBody)
  myHistory : List (HttpResponse HitsCategoryBody)
  myContracts : List (HttpResponse HitsCategoryBody)
  myPlaylist : List (HttpResponse HitsCategoryBody)
  cpd : HttpResponse CPDResponse

/-- The aggregate snapshot built by `getOfficialResponses`. -/
structure OfficialResponses where
  GetProfile : GetProfileBody
  PlayerProfile : PlayerProfileData
  Challenges : List (String × FetchedChallenge)
  ContractAttack : List Hit
  Arcade : List Hit
  MyHistory : List Hit
  MyContracts : List Hit
  MyPlaylist : List Hit
  CPD : List (String × Option CPDResponse)

/-- `getOfficialResponses`: look up the session, run every fetch, and build
the aggregate snapshot.  Every fetch failure propagates, except the
`GetForPlay2` probe, whose failure is caught (and logged) and recorded as
an absent value under the freelancer mission id. -/
def getOfficialResponses (r : RemoteResponses) : Except String OfficialResponses :=
  if ¬ r.userFound then Except.error "User not found." else
  match requestGetProfile r.getProfile with
  | Except.error e => Except.error e
  | Except.ok gp =>
  match requestPlayerProfile r.playerProfile with
  | Except.error e => Except.error e
  | Except.ok pp =>
  match requestChallenges r.challenges [] with
  | Except.error e => Except.error e
  | Except.ok ch =>
  match requestHitsCategoryAll r.contractAttack with
  | Except.error e => Except.error e
  | Except.ok ca =>
  match requestHitsCategoryAll r.arcade with
  | Except.error e => Except.error e
  | Except.ok ar =>
  match requestHitsCategoryAll r.myHistory with
  | Except.error e => Except.error e
  | Except.ok mh =>
  match requestHitsCategoryAll r.myContracts with
  | Except.error e => Except.error e
  | Except.ok mc =>
  match requestHitsCategoryAll r.myPlaylist with
  | Except.error e => Except.error e
  | Except.ok mp =>
      Except.ok
        { GetProfile := gp
          PlayerProfile := pp
          Challenges := ch
          ContractAttack := ca
          Arcade := ar
          MyHistory := mh
          MyContracts := mc
          MyPlaylist := mp
          CPD := [(freelancerId, cpdSlot r.cpd)] }

/-! ## The field merger, phase by phase -/

/-- Overwrite one location record with a sublocation's completion data:
a flat record gets `Xp`/`Level`/`PreviouslySeenXp` overwritten in place;
a nested record gets every sub-entry overwritten identically. -/
def overwriteLocationRecord (rec : LocationRecord) (cd : CompletionData) : LocationRecord :=
  match rec with
  | LocationRecord.flat p =>
      LocationRecord.flat { p with Xp := cd.XP, Level := cd.Level, PreviouslySeenXp := cd.XP }
  | LocationRecord.nested subs =>
      LocationRecord.nested (subs.map (fun kv =>
        (kv.1, { kv.2 with Xp := cd.XP, Level := cd.Level, PreviouslySeenXp := cd.XP })))

/-- The per-sublocation merge loop: for each fetched `SubLocationData`
entry, look up `progression.Locations[CompletionData.Id]` and overwrite it.
When the id has no local record, the JS code evaluates
`Object.hasOwn(undefined, "Xp")` and throws a `TypeError`, modelled as the
error branch. -/
def mergeSublocations (locs : List (String × LocationRecord)) :
    List SubLocationEntry → Except String (List (String × LocationRecord))
  | [] => Except.ok locs
  | e :: rest =>
      match getKV locs e.CompletionData.Id with
      | none =>
          Except.error ("TypeError: Cannot convert undefined or null to object (" ++
            e.CompletionData.Id ++ ")")
      | some rec =>
          mergeSublocations
            (setKV locs e.CompletionData.Id (overwriteLocationRecord rec e.CompletionData))
            rest

/-- Rebuild of `PlayerProfileXP.Sublocations`: the nested push loops over
`Seasons[i].Locations`. -/
def buildSublocations (seasons : List Season) : List SublocationXp :=
  seasons.foldl (fun acc s =>
    acc ++ s.Locations.map (fun l =>
      { Location := l.LocationId, Xp := l.Xp, ActionXp := l.ActionXp })) []

/-- The opportunity-progression conversion: `Object.keys(...).reduce`
writing `result[key] = official[key] !== ""`. -/
def mergeOpportunityProgression (official : List (String × String)) : List (String × Bool) :=
  official.map (fun kv => (kv.1, decide (kv.2 ≠ "")))

/-- `challengeProgression.State.CurrentState ?? "Start"`: JS `??` falls
through to the default when the property is absent (`undefined`) or
`null`. -/
def currentStateOf (state : Json) : Json :=
  match jsGet state "CurrentState" with
  | some Json.null => Json.str "Start"
  | some v => v
  | none => Json.str "Start"

/-- The challenge-progression entry written for one fetched challenge:
`Ticked` and `Completed` are both `Completed || CompletedAt !== null`
(the timestamp is authoritative when the flag lags). -/
def challengeEntryOf (p : ChallengeProgressionServer) : ChallengeEntry :=
  { Ticked := p.Completed || p.CompletedAt.isSome
    Completed := p.Completed || p.CompletedAt.isSome
    CurrentState := currentStateOf p.State
    State := p.State }

/-- The challenge-progression merge loop: start from a fresh `{}` and write
one entry per fetched challenge, keyed by `Progression.ChallengeId`. -/
def mergeChallengeProgression (challenges : List (String × FetchedChallenge)) :
    List (String × ChallengeEntry) :=
  challenges.foldl
    (fun m kv => setKV m kv.2.Progression.ChallengeId (challengeEntryOf kv.2.Progression)) []

/-- The one Peacock-exclusive challenge whose progress the official server
does not track. -/
def peacockChallengeId : String := "2546d4f7-191c-4858-840f-321d31aed410"

/-- The five hardcoded discovery-area repository ids, in source order. -/
def discoveryAreas : List String :=
  ["fa7b2877-3159-454a-82d3-422a0dd7e5da",
   "7cfd6202-b3fb-4c9f-b3c2-c892b8031901",
   "0a4513e4-338c-4328-ad72-82c1b5ff2a73",
   "705c3917-9f3d-4444-a268-41e74bc8e4ad",
   "ba0fe890-9feb-4991-82f8-5daf7aff3380"]

/-- `PersistentBool[area] === true`: strict equality with the boolean
`true`. -/
def isDiscovered (pb : List (String × Json)) (area : String) : Bool :=
  match getKV pb area with
  | some (Json.bool true) => true
  | _ => false

/-- The result of one `handleEvent` call of the external state-machine
evaluator: the next state and the next context. -/
structure HandleEventResult where
  state : String
  context : Json

/-- The external state-machine evaluator, specialised to the special
challenge's definition (looked up once from the challenge registry): given
the current context, the event payload's `RepositoryId` and the current
state, produce the next state and context. -/
def Evaluator : Type := Json → String → String → HandleEventResult

/-- `getChallengeAfterAreasDiscovered`: replay one `AreaDiscovered` event
per discovered area through the evaluator, starting from state `"Start"`
and the challenge definition's `Context`; the entry's `Completed` is true
iff the final state is `"Success"`. -/
def getChallengeAfterAreasDiscovered (evaluator : Evaluator)
    (definitionContext : Json) (areasDiscovered : List String) : ChallengeEntry :=
  let fin := areasDiscovered.foldl
    (fun (acc : String × Json) area =>
      let result := evaluator acc.2 area acc.1
      (result.state, result.context))
    ("Start", definitionContext)
  { Ticked := false
    Completed := decide (fin.1 = "Success")
    CurrentState := Json.str fin.1
    State := fin.2 }

/-- The special-case overwrite: store the reconstructed entry for the
hardcoded challenge id, derived from the areas flagged `=== true` in the
remote `PersistentBool` data (filtered in fixed area-list order). -/
def applyPeacockChallengeFix (evaluator : Evaluator) (definitionContext : Json)
    (pb : List (String × Json)) (m : List (String × ChallengeEntry)) :
    List (String × ChallengeEntry) :=
  setKV m peacockChallengeId
    (getChallengeAfterAreasDiscovered evaluator definitionContext
      (discoveryAreas.filter (isDiscovered pb)))

/-- The escalations/arcades loop over `ContractAttack.concat(Arcade)`:
`PeacockEscalations[hit.Id] = EscalationCompletedLevels + 1`, and hits whose
`EscalationCompleted` flag is set are appended to
`PeacockCompletedEscalations`. -/
def mergeEscalations (escalations : List (String × Int)) (completed : List String)
    (hits : List Hit) : List (String × Int) × List String :=
  hits.foldl
    (fun acc hit =>
      (setKV acc.1 hit.Id (hit.UserCentricContract.Data.EscalationCompletedLevels + 1),
       if hit.UserCentricContract.Data.EscalationCompleted then acc.2 ++ [hit.Id]
       else acc.2))
    (escalations, completed)

/-- The feature flags consumed by the download phase. -/
structure Flags where
  downloadContractHistory : Bool
  downloadContractHistoryLimit : Nat
  downloadMyContracts : Bool
  downloadFavorites : Bool
deriving Repr, DecidableEq

/-- The `toDownload.MyHistory` slot: all fetched history hits when the
history toggle is on, empty otherwise (the limit is never applied here). -/
def toDownloadMyHistory (flags : Flags) (myHistory : List Hit) : List Hit :=
  if flags.downloadContractHistory then myHistory else []

/-- The `toDownload.MyContracts` slot: all fetched "my contracts" hits when
the toggle is on, empty otherwise, then cut to the first
`downloadContractHistoryLimit` entries when that flag is non-zero
(`slice(0, limit)`). -/
def toDownloadMyContracts (flags : Flags) (myContracts : List Hit) : List Hit :=
  let base := if flags.downloadMyContracts then myContracts else []
  if flags.downloadContractHistoryLimit ≠ 0 then
    base.take flags.downloadContractHistoryLimit
  else base

/-- The `toDownload.MyPlaylist` slot: all favorited hits when the favorites
toggle is on, empty otherwise. -/
def toDownloadMyPlaylist (flags : Flags) (myPlaylist : List Hit) : List Hit :=
  if flags.downloadFavorites then myPlaylist else []

/-- The public-id format check `/^[1-3]\d\x7b2\x7d\d\x7b7\x7d\d\x7b2\x7d$/`:
a first digit in `1`..`3` followed by exactly eleven further digits. -/
def isValidPublicId (s : String) : Bool :=
  match s.toList with
  | [] => false
  | c :: rest =>
      (c = '1' || c = '2' || c = '3') && rest.length = 11 && rest.all Char.isDigit

/-- The external contract controller: `resolveContract` says whether a
contract is already known locally; `downloadContract` performs (and may
fail) one per-contract download, keyed here by the public id. -/
structure Controller where
  resolveContract : String → Bool
  downloadContract : String → Except String Unit

/-- What the download loop did with one considered hit. -/
inductive DownloadAction where
  | alreadyKnown (hitId : String) : DownloadAction
  | invalidPublicId (publicId : String) : DownloadAction
  | downloaded (publicId : String) : DownloadAction
  | downloadFailed (publicId : String) (message : String) : DownloadAction
deriving Repr, DecidableEq

/-- One iteration of the download loop: skip hits already known locally,
log-and-skip hits whose public id fails the format check, otherwise invoke
the download, catching (and logging) an individual failure. -/
def processHit (ctrl : Controller) (hit : Hit) : DownloadAction :=
  if ctrl.resolveContract hit.Id then DownloadAction.alreadyKnown hit.Id
  else
    let publicId := hit.UserCentricContract.Contract.Metadata.PublicId
    if ¬ isValidPublicId publicId then DownloadAction.invalidPublicId publicId
    else
      match ctrl.downloadContract publicId with
      | Except.ok _ => DownloadAction.downloaded publicId
      | Except.error e => DownloadAction.downloadFailed publicId e

/-- The download loop over the considered hits, in order; it never throws,
so every hit is processed exactly once. -/
def processDownloads (ctrl : Controller) (hits : List Hit) : List DownloadAction :=
  hits.map (processHit ctrl)

/-- The played-contracts loop: when the history toggle is on, record every
fetched history hit (`new Date(LastPlayedAt).getTime()` is the external
`parseDateTime`). -/
def mergePlayedContracts (parseDateTime : String → Int) (flags : Flags)
    (played : List (String × PlayedContractEntry)) (myHistory : List Hit) :
    List (String × PlayedContractEntry) :=
  if flags.downloadContractHistory then
    myHistory.foldl
      (fun m hit => setKV m hit.Id
        { LastPlayedAt := parseDateTime hit.UserCentricContract.Data.LastPlayedAt
          Completed := hit.UserCentricContract.Data.Completed
          IsEscalation := false })
      played
  else played

/-- The freelancer-CPD merge: for each probed mission id, skip absent data
(`if (!oResp.CPD[cpdId]) continue`), otherwise store the raw response and
assign every `ContractProgressionData` key onto the stored entry. -/
def mergeCPD (cpd : List (String × CPDEntry))
    (responses : List (String × Option CPDResponse)) : List (String × CPDEntry) :=
  responses.foldl
    (fun m kv =>
      match kv.2 with
      | none => m
      | some resp =>
          setKV m kv.1
            { base := resp
              flattened := resp.ContractProgressionData.foldl
                (fun a e => setKV a e.1 e.2) [] })
    cpd

/-- The external collaborators `carryOverUserData` consumes: the contract
controller, the feature flags, the state-machine evaluator together with
the special challenge definition's initial `Context` (from the challenge
registry), and date parsing. -/
structure CarryOverEnv where
  ctrl : Controller
  flags : Flags
  evaluator : Evaluator
  specialChallengeContext : Json
  parseDateTime : String → Int

/-- The pure tail of `carryOverUserData` once the fetches succeeded:
every field-merge phase in source order, producing the populated profile
and the trace of download actions.  `d` is the versioned default profile
from the config store. -/
def mergeOfficialData (env : CarryOverEnv) (oResp : OfficialResponses)
    (d : UserProfile) : Except String (UserProfile × List DownloadAction) :=
  match mergeSublocations d.Extensions.progression.Locations
      oResp.PlayerProfile.SubLocationData with
  | Except.error e => Except.error e
  | Except.ok newLocations =>
      let officialProgression := oResp.GetProfile.Extensions.progression
      let officialProfileXp := oResp.PlayerProfile.PlayerProfileXp
      let officialGPD := oResp.GetProfile.Extensions.gamepersistentdata
      let challengeMap :=
        applyPeacockChallengeFix env.evaluator env.specialChallengeContext
          officialGPD.PersistentBool
          (mergeChallengeProgression oResp.Challenges)
      let esc := mergeEscalations d.Extensions.PeacockEscalations
        d.Extensions.PeacockCompletedEscalations
        (oResp.ContractAttack ++ oResp.Arcade)
      let consideredContracts := toDownloadMyContracts env.flags oResp.MyContracts
      let consideredPlaylist := toDownloadMyPlaylist env.flags oResp.MyPlaylist
      let consideredHistory := toDownloadMyHistory env.flags oResp.MyHistory
      let actions := processDownloads env.ctrl
        (consideredContracts ++ consideredPlaylist ++ consideredHistory)
      Except.ok
        ({ identity := oResp.GetProfile.identity
           Extensions :=
             { gameclient := oResp.GetProfile.Extensions.gameclient
               progression :=
                 { XPGain := officialProgression.XPGain
                   secondsToNextDrop := officialProgression.secondsToNextDrop
                   secondsElapsed := officialProgression.secondsElapsed
                   LastCompletedChallenge := officialProgression.LastCompletedChallenge
                   LastScore := officialProgression.LastScore
                   TimeDropDelta := officialProgression.TimeDropDelta
                   Locations := newLocations
                   PlayerProfileXP :=
                     { Total := officialProfileXp.Total
                       PreviouslySeenTotal :=
                         officialProgression.PlayerProfileXP.PreviouslySeenTotal
                       ProfileLevel := officialProfileXp.Level
                       PreviouslySeenStaging :=
                         officialProgression.PlayerProfileXP.PreviouslySeenStaging
                       Sublocations := buildSublocations officialProfileXp.Seasons } }
               gamepersistentdata :=
                 { __stats := officialGPD.__stats
                   prologue := officialGPD.prologue
                   menudata :=
                     { destinations := officialGPD.menudata.destinations
                       planning := d.Extensions.gamepersistentdata.menudata.planning
                       newunlockables := officialGPD.menudata.newunlockables
                       persistentdatacomponent := Json.obj
                         [("destinations", officialGPD.menudata.destinations),
                          ("planning", officialGPD.menudata.planning)] }
                   PersistentBool := officialGPD.PersistentBool
                   IsFSPUser := officialGPD.IsFSPUser
                   VideoShown := officialGPD.VideoShown
                   EpilogueSeen := officialGPD.EpilogueSeen }
               opportunityprogression := mergeOpportunityProgression
                 oResp.GetProfile.Extensions.opportunityprogression
               friends := oResp.GetProfile.Extensions.friends
               achievements := oResp.GetProfile.Extensions.achievements
               ChallengeProgression := challengeMap
               PeacockEscalations := esc.1
               PeacockCompletedEscalations := esc.2
               PeacockPlayedContracts := mergePlayedContracts env.parseDateTime
                 env.flags d.Extensions.PeacockPlayedContracts oResp.MyHistory
               PeacockFavoriteContracts := d.Extensions.PeacockFavoriteContracts ++
                 (consideredContracts ++ consideredPlaylist).map Hit.Id
               CPD := mergeCPD d.Extensions.CPD oResp.CPD } },
         actions)

/-- `carryOverUserData`: fetch everything from the official server, load
the versioned default profile `d`, and merge.  The result also carries the
trace of secondary-download actions the run performed. -/
def carryOverUserData (env : CarryOverEnv) (r : RemoteResponses) (d : UserProfile) :
    Except String (UserProfile × List DownloadAction) :=
  match getOfficialResponses r with
  | Except.error e => Except.error e
  | Except.ok oResp => mergeOfficialData env oResp d

/-! ## Theorems -/

/-- The replay fold of `getChallengeAfterAreasDiscovered`, as its own
function so theorems can speak about the final state/context pair. -/
def replayAreaDiscovered (evaluator : Evaluator) (startState : String) (ctx : Json)
    (areas : List String) : String × Json :=
  areas.foldl
    (fun (acc : String × Json) area =>
      let result := evaluator acc.2 area acc.1
      (result.state, result.context))
    (startState, ctx)

theorem getChallengeAfterAreasDiscovered_eq (evaluator : Evaluator) (ctx : Json)
    (areas : List String) :
    getChallengeAfterAreasDiscovered evaluator ctx areas =
      { Ticked := false
        Completed := decide ((replayAreaDiscovered evaluator "Start" ctx areas).1 = "Success")
        CurrentState := Json.str (replayAreaDiscovered evaluator "Start" ctx areas).1
        State := (replayAreaDiscovered evaluator "Start" ctx areas).2 } := rfl

theorem isDiscovered_iff (pb : List (String × Json)) (a : String) :
    isDiscovered pb a = true ↔ getKV pb a = some (Json.bool true) := by
  unfold isDiscovered
  cases h : getKV pb a with
  | none => simp
  | some v =>
      cases v with
      | bool b => cases b <;> simp
      | null => simp
      | num n => simp
      | str s => simp
      | arr elems => simp
      | obj fields => simp

/-- C10: the per-sublocation merge is total exactly when every fetched
`CompletionData.Id` is a key of the local `progression.Locations` mapping;
a missing id makes the merge (and hence `carryOverUserData`, which
propagates the error) throw instead of skipping the entry. -/
theorem sublocation_merge_totality (locs : List (String × LocationRecord))
    (entries : List SubLocationEntry) :
    ((∀ e, e ∈ entries → (getKV locs e.CompletionData.Id).isSome = true) ↔
      ∃ out, mergeSublocations locs entries = Except.ok out)
    ∧ (∀ env oResp d e, mergeSublocations d.Extensions.progression.Locations
          oResp.PlayerProfile.SubLocationData = Except.error e →
        mergeOfficialData env oResp d = Except.error e) := by
  constructor
  · induction entries generalizing locs with
    | nil => simp [mergeSublocations]
    | cons e rest ih =>
        constructor
        · intro h
          have he := h e (List.mem_cons_self e rest)
          cases hg : getKV locs e.CompletionData.Id with
          | none => rw [hg] at he; simp at he
          | some rec =>
              simp only [mergeSublocations, hg]
              apply (ih _).mp
              intro e' he'
              rw [isSome_getKV_setKV _ _ _ _ (by rw [hg]; rfl)]
              exact h e' (List.mem_cons_of_mem e he')
        · intro ⟨out, hout⟩ e' he'
          cases hg : getKV locs e.CompletionData.Id with
          | none => simp [mergeSublocations, hg] at hout
          | some rec =>
              simp only [mergeSublocations, hg] at hout
              rcases List.mem_cons.mp he' with rfl | hmem
              · rw [hg]; rfl
              · have := (ih _).mpr ⟨out, hout⟩ e' hmem
                rwa [isSome_getKV_setKV _ _ _ _ (by rw [hg]; rfl)] at this
  · intro env oResp d e h
    unfold mergeOfficialData
    rw [h]

/-- C10 witness: one local location with a flat record, one fetched
sublocation targeting it — the merge succeeds and the precondition holds. -/
theorem sublocation_merge_totality_witness :
    ∃ out, mergeSublocations
      [("LOCATION_A", LocationRecord.flat { Xp := 0, Level := 1, PreviouslySeenXp := 0 })]
      [{ CompletionData := { Id := "LOCATION_A", XP := 500, Level := 3 } }] =
      Except.ok out :=
  (sublocation_merge_totality
      [("LOCATION_A", LocationRecord.flat { Xp := 0, Level := 1, PreviouslySeenXp := 0 })]
      [{ CompletionData := { Id := "LOCATION_A", XP := 500, Level := 3 } }]).1.mp
    (by intro e he; simp at he; subst he; rfl)

theorem getKV_foldl_setKV_of_nodup {α β : Type} (key : α → String) (val : α → β)
    (l : List α) (hnd : (l.map key).Nodup) (a : α) (ha : a ∈ l)
    (init : List (String × β)) :
    getKV (l.foldl (fun m x => setKV m (key x) (val x)) init) (key a) = some (val a) := by
  rw [getKV_foldl_setKV, find?_reverse_of_nodup key l hnd a ha]
  rfl

/-- C1: for every challenge fetched from the official server (keyed
distinctly, and distinct from the Peacock-exclusive challenge the merger
overwrites afterwards), the merged `ChallengeProgression` entry has
`Completed` true iff the server's flag is set or its completion timestamp
is non-null, `Ticked` mirroring `Completed`, `State` copied verbatim, and
`CurrentState` equal to the server's `State.CurrentState`, defaulting to
`"Start"` when that field is absent. -/
theorem challenge_progression_merge_correct
    (challenges : List (String × FetchedChallenge)) (evaluator : Evaluator)
    (ctx : Json) (pb : List (String × Json)) (k : String) (ch : FetchedChallenge)
    (hnd : (challenges.map (fun p => p.2.Progression.ChallengeId)).Nodup)
    (hmem : (k, ch) ∈ challenges)
    (hne : ch.Progression.ChallengeId ≠ peacockChallengeId) :
    ∃ entry, getKV (applyPeacockChallengeFix evaluator ctx pb
        (mergeChallengeProgression challenges)) ch.Progression.ChallengeId = some entry
      ∧ (entry.Completed = true ↔
          (ch.Progression.Completed = true ∨ ch.Progression.CompletedAt ≠ none))
      ∧ entry.Ticked = entry.Completed
      ∧ entry.State = ch.Progression.State
      ∧ (jsGet ch.Progression.State "CurrentState" = none →
          entry.CurrentState = Json.str "Start")
      ∧ (∀ v, jsGet ch.Progression.State "CurrentState" = some v → v ≠ Json.null →
          entry.CurrentState = v) := by
  refine ⟨challengeEntryOf ch.Progression, ?_, ?_, rfl, rfl, ?_, ?_⟩
  · unfold applyPeacockChallengeFix
    rw [getKV_setKV_ne _ _ _ _ (Ne.symm hne)]
    exact getKV_foldl_setKV_of_nodup
      (fun (p : String × FetchedChallenge) => p.2.Progression.ChallengeId)
      (fun p => challengeEntryOf p.2.Progression) challenges hnd (k, ch) hmem []
  · simp [challengeEntryOf, Option.isSome_iff_ne_none]
  · intro h
    simp [challengeEntryOf, currentStateOf, h]
  · intro v hv hvnull
    cases v with
    | null => exact absurd rfl hvnull
    | bool b => simp [challengeEntryOf, currentStateOf, hv]
    | num n => simp [challengeEntryOf, currentStateOf, hv]
    | str s => simp [challengeEntryOf, currentStateOf, hv]
    | arr elems => simp [challengeEntryOf, currentStateOf, hv]
    | obj fields => simp [challengeEntryOf, currentStateOf, hv]

/-- A concrete fetched challenge: the server's completed flag lags
(`Completed = false`) but the completion timestamp is set. -/
def sampleChallengeA : FetchedChallenge :=
  { Challenge := { Id := "CHALLENGE_A" }
    Progression :=
      { ChallengeId := "CHALLENGE_A"
        Completed := false
        CompletedAt := some "2023-01-01T00:00:00Z"
        State := Json.obj [("CurrentState", Json.str "Success")] } }

/-- C1 witness: a single fetched challenge whose timestamp (but not flag)
is set ends up `Completed`. -/
theorem challenge_progression_merge_correct_witness :
    ∃ entry, getKV (applyPeacockChallengeFix
        (fun c _ _ => { state := "X", context := c }) Json.null []
        (mergeChallengeProgression [("CHALLENGE_A", sampleChallengeA)]))
        "CHALLENGE_A" = some entry ∧ entry.Completed = true := by
  obtain ⟨entry, hlook, hiff, -⟩ := challenge_progression_merge_correct
    [("CHALLENGE_A", sampleChallengeA)]
    (fun c _ _ => { state := "X", context := c }) Json.null []
    "CHALLENGE_A" sampleChallengeA
    (by simp) (by simp) (by decide)
  exact ⟨entry, hlook, hiff.mpr (Or.inr (by simp [sampleChallengeA]))⟩

/-- C2: the merger stores, under the one hardcoded challenge id, the entry
obtained by replaying one `AreaDiscovered` event per selected area — the
areas among the five hardcoded ids whose remote `PersistentBool` flag is
exactly `true`, in fixed area-list order — through the external evaluator
from state `"Start"` and the definition's initial context; `CurrentState`
is the final state, `State` the final context, and `Completed` holds iff
the final state is `"Success"`. -/
theorem special_challenge_reconstruction (evaluator : Evaluator) (ctx : Json)
    (pb : List (String × Json)) (m : List (String × ChallengeEntry)) :
    getKV (applyPeacockChallengeFix evaluator ctx pb m) peacockChallengeId =
      some { Ticked := false
             Completed := decide ((replayAreaDiscovered evaluator "Start" ctx
               (discoveryAreas.filter (isDiscovered pb))).1 = "Success")
             CurrentState := Json.str (replayAreaDiscovered evaluator "Start" ctx
               (discoveryAreas.filter (isDiscovered pb))).1
             State := (replayAreaDiscovered evaluator "Start" ctx
               (discoveryAreas.filter (isDiscovered pb))).2 }
    ∧ ∀ a, a ∈ discoveryAreas.filter (isDiscovered pb) ↔
        (a ∈ discoveryAreas ∧ getKV pb a = some (Json.bool true)) := by
  constructor
  · unfold applyPeacockChallengeFix
    rw [getChallengeAfterAreasDiscovered_eq]
    exact getKV_setKV_self _ _ _
  · intro a
    rw [List.mem_filter, isDiscovered_iff]

/-- C2 witness (the spec's end-to-end scenario): with only the first area
flagged `true` and a stub evaluator that moves to `"Success"` on any
event, the stored entry is completed with `CurrentState = "Success"`. -/
theorem special_challenge_reconstruction_witness :
    ∃ entry, getKV (applyPeacockChallengeFix
        (fun c _ _ => { state := "Success", context := c }) Json.null
        [("fa7b2877-3159-454a-82d3-422a0dd7e5da", Json.bool true),
         ("7cfd6202-b3fb-4c9f-b3c2-c892b8031901", Json.bool false),
         ("0a4513e4-338c-4328-ad72-82c1b5ff2a73", Json.bool false),
         ("705c3917-9f3d-4444-a268-41e74bc8e4ad", Json.bool false),
         ("ba0fe890-9feb-4991-82f8-5daf7aff3380", Json.bool false)] [])
        peacockChallengeId = some entry
      ∧ entry.Completed = true ∧ entry.CurrentState = Json.str "Success" := by
  obtain ⟨h1, -⟩ := special_challenge_reconstruction
    (fun c _ _ => { state := "Success", context := c }) Json.null
    [("fa7b2877-3159-454a-82d3-422a0dd7e5da", Json.bool true),
     ("7cfd6202-b3fb-4c9f-b3c2-c892b8031901", Json.bool false),
     ("0a4513e4-338c-4328-ad72-82c1b5ff2a73", Json.bool false),
     ("705c3917-9f3d-4444-a268-41e74bc8e4ad", Json.bool false),
     ("ba0fe890-9feb-4991-82f8-5daf7aff3380", Json.bool false)] []
  exact ⟨_, h1, by rfl, by rfl⟩

theorem foldl_prod_decompose {α β γ : Type} (f : α → γ → α) (g : β → γ → β)
    (l : List γ) (a : α) (b : β) :
    l.foldl (fun acc x => (f acc.1 x, g acc.2 x)) (a, b) = (l.foldl f a, l.foldl g b) := by
  induction l generalizing a b with
  | nil => rfl
  | cons x xs ih => simp [List.foldl_cons, ih]

theorem foldl_if_append {α β : Type} (p : α → Bool) (f : α → β) (l : List α)
    (init : List β) :
    l.foldl (fun acc x => if p x then acc ++ [f x] else acc) init =
      init ++ (l.filter p).map f := by
  induction l generalizing init with
  | nil => simp
  | cons x xs ih =>
      by_cases h : p x
      · simp [List.foldl_cons, h, ih, List.filter_cons]
      · simp [List.foldl_cons, h, ih, List.filter_cons]

theorem mergeEscalations_eq (escalations : List (String × Int)) (completed : List String)
    (hits : List Hit) :
    mergeEscalations escalations completed hits =
      (hits.foldl (fun m h =>
         setKV m h.Id (h.UserCentricContract.Data.EscalationCompletedLevels + 1)) escalations,
       hits.foldl (fun c h =>
         if h.UserCentricContract.Data.EscalationCompleted then c ++ [h.Id] else c) completed) :=
  foldl_prod_decompose
    (fun m (h : Hit) => setKV m h.Id (h.UserCentricContract.Data.EscalationCompletedLevels + 1))
    (fun c (h : Hit) => if h.UserCentricContract.Data.EscalationCompleted then c ++ [h.Id] else c)
    hits escalations completed

/-- C5: over the concatenated ContractAttack and Arcade hit lists (with
distinct hit ids, starting from the default profile's empty
completed-escalations list), every hit's `PeacockEscalations` entry is the
server's completed-levels plus one, and `PeacockCompletedEscalations` ends
up being exactly the ids of the hits whose `EscalationCompleted` flag is
set, in order. -/
theorem escalation_merge_correct (escalations : List (String × Int)) (hits : List Hit)
    (hnd : (hits.map Hit.Id).Nodup) :
    (∀ hit, hit ∈ hits →
       getKV (mergeEscalations escalations [] hits).1 hit.Id =
         some (hit.UserCentricContract.Data.EscalationCompletedLevels + 1))
    ∧ (mergeEscalations escalations [] hits).2 =
        (hits.filter (fun h => h.UserCentricContract.Data.EscalationCompleted)).map Hit.Id := by
  constructor
  · intro hit hmem
    rw [mergeEscalations_eq]
    exact getKV_foldl_setKV_of_nodup Hit.Id
      (fun h => h.UserCentricContract.Data.EscalationCompletedLevels + 1)
      hits hnd hit hmem escalations
  · rw [mergeEscalations_eq]
    simp [foldl_if_append]

/-- A completed escalation hit (two levels completed, escalation finished),
with a well-formed public contract id. -/
def sampleHit : Hit :=
  { Id := "HIT_1"
    UserCentricContract :=
      { Data :=
          { EscalationCompletedLevels := 2
            EscalationTotalLevels := 5
            EscalationCompleted := true
            LastPlayedAt := "2023-01-02T00:00:00Z"
            Completed := true }
        Contract := { Metadata := { PublicId := "123456789012" } } } }

/-- An unfinished hit with a malformed public contract id. -/
def sampleHit2 : Hit :=
  { Id := "HIT_2"
    UserCentricContract :=
      { Data :=
          { EscalationCompletedLevels := 0
            EscalationTotalLevels := 3
            EscalationCompleted := false
            LastPlayedAt := "2023-01-03T00:00:00Z"
            Completed := false }
        Contract := { Metadata := { PublicId := "not-a-public-id" } } } }

/-- C5 witness: one finished hit and one unfinished hit — levels are
derived as completed-levels + 1 and only the finished id is recorded. -/
theorem escalation_merge_correct_witness :
    getKV (mergeEscalations [] [] [sampleHit, sampleHit2]).1 "HIT_1" = some 3
    ∧ (mergeEscalations [] [] [sampleHit, sampleHit2]).2 = ["HIT_1"] := by
  obtain ⟨h1, h2⟩ := escalation_merge_correct [] [sampleHit, sampleHit2] (by decide)
  refine ⟨?_, ?_⟩
  · have := h1 sampleHit (by simp)
    simpa [sampleHit] using this
  · rw [h2]; decide

/-- C6: the opportunity-progression merge preserves the remote mapping's
key list, and maps every key to `true` exactly when the remote string
value is non-empty (absent keys stay absent). -/
theorem opportunity_progression_correct (official : List (String × String)) :
    ((mergeOpportunityProgression official).map Prod.fst = official.map Prod.fst)
    ∧ ∀ k, getKV (mergeOpportunityProgression official) k =
        (getKV official k).map (fun v => decide (v ≠ "")) := by
  constructor
  · simp [mergeOpportunityProgression]
  · intro k
    induction official with
    | nil => rfl
    | cons kv rest ih =>
        by_cases h : kv.1 = k
        · simp [mergeOpportunityProgression, getKV, h]
        · simpa [mergeOpportunityProgression, getKV, h] using ih

/-- C7 counterexample: with the `downloadMyContracts` toggle disabled and
the limit flag zero, a fetched "my contracts" hit is *not* considered. -/
theorem my_contracts_limit_counterexample :
    ¬ (toDownloadMyContracts
      { downloadContractHistory := true, downloadContractHistoryLimit := 0,
        downloadMyContracts := false, downloadFavorites := true }
      [sampleHit] = [sampleHit]) := by
  decide

/-- C7 (amended): when the limit flag is non-zero the considered
"my contracts" list is an initial segment of the fetched list of length at
most the limit; when the limit is zero *and the my-contracts toggle is
enabled*, all fetched hits are considered. -/
theorem my_contracts_limit_amended (flags : Flags) (myContracts : List Hit) :
    (flags.downloadContractHistoryLimit ≠ 0 →
      (toDownloadMyContracts flags myContracts).length ≤ flags.downloadContractHistoryLimit
      ∧ ∃ n, toDownloadMyContracts flags myContracts = myContracts.take n)
    ∧ (flags.downloadContractHistoryLimit = 0 → flags.downloadMyContracts = true →
      toDownloadMyContracts flags myContracts = myContracts) := by
  unfold toDownloadMyContracts
  constructor
  · intro h
    by_cases ht : flags.downloadMyContracts
    · simp only [ht, if_true, h, ne_eq, not_false_eq_true, if_pos]
      exact ⟨List.length_take_le _ _, ⟨flags.downloadContractHistoryLimit, rfl⟩⟩
    · simp only [ht, if_false, h, ne_eq, not_false_eq_true, if_pos, Bool.false_eq_true,
        List.take_nil]
      exact ⟨Nat.zero_le _, ⟨0, by simp⟩⟩
  · intro h0 ht
    simp [h0, ht]

/-- C7 witness: limit 1 over two fetched hits — exactly one initial hit is
considered. -/
theorem my_contracts_limit_amended_witness :
    (toDownloadMyContracts
      { downloadContractHistory := true, downloadContractHistoryLimit := 1,
        downloadMyContracts := true, downloadFavorites := true }
      [sampleHit, sampleHit2]).length ≤ 1 :=
  ((my_contracts_limit_amended
      { downloadContractHistory := true, downloadContractHistoryLimit := 1,
        downloadMyContracts := true, downloadFavorites := true }
      [sampleHit, sampleHit2]).1 (by decide)).1

/-- C8 counterexample: with the history toggle enabled and the count flag
set to 1, *both* fetched history hits are considered — the history
category is not capped by the count. -/
theorem history_cap_counterexample :
    toDownloadMyHistory
      { downloadContractHistory := true, downloadContractHistoryLimit := 1,
        downloadMyContracts := true, downloadFavorites := true }
      [sampleHit, sampleHit2] = [sampleHit, sampleHit2]
    ∧ ¬ ((toDownloadMyHistory
      { downloadContractHistory := true, downloadContractHistoryLimit := 1,
        downloadMyContracts := true, downloadFavorites := true }
      [sampleHit, sampleHit2]).length ≤ 1) := by
  constructor
  · decide
  · decide

/-- C8 (amended): when the history toggle is enabled *all* fetched history
hits are considered — the configurable count never caps the history
category; the count instead caps the my-contracts category. -/
theorem history_cap_amended (flags : Flags) (myHistory myContracts : List Hit) :
    (flags.downloadContractHistory = true →
      toDownloadMyHistory flags myHistory = myHistory)
    ∧ (flags.downloadContractHistoryLimit ≠ 0 →
      (toDownloadMyContracts flags myContracts).length ≤
        flags.downloadContractHistoryLimit) := by
  constructor
  · intro h
    simp [toDownloadMyHistory, h]
  · intro h
    unfold toDownloadMyContracts
    by_cases ht : flags.downloadMyContracts
    · simp only [ht, if_true, h, ne_eq, not_false_eq_true, if_pos]
      exact List.length_take_le _ _
    · simp only [ht, if_false, h, ne_eq, not_false_eq_true, if_pos, Bool.false_eq_true,
        List.take_nil]
      exact Nat.zero_le _

/-- C8 witness: history toggle on — both history hits are considered even
with the count flag at 1. -/
theorem history_cap_amended_witness :
    toDownloadMyHistory
      { downloadContractHistory := true, downloadContractHistoryLimit := 1,
        downloadMyContracts := true, downloadFavorites := true }
      [sampleHit, sampleHit2] = [sampleHit, sampleHit2] :=
  (history_cap_amended
    { downloadContractHistory := true, downloadContractHistoryLimit := 1,
      downloadMyContracts := true, downloadFavorites := true }
    [sampleHit, sampleHit2] [sampleHit]).1 rfl

/-- C9: the download loop processes every considered hit independently:
wherever a hit sits in the considered list, the surrounding hits are
processed regardless of its outcome; an unknown hit with a matching public
id triggers the download (recording success or the caught failure), one
with a non-matching public id is logged and skipped without an error; and
the merge phase can only fail through the sublocation merge — never
through a download outcome. -/
theorem download_loop_spec (ctrl : Controller) (hits : List Hit) :
    (∀ pre hit post, hits = pre ++ hit :: post →
       processDownloads ctrl hits =
         processDownloads ctrl pre ++ processHit ctrl hit :: processDownloads ctrl post)
    ∧ (∀ hit, hit ∈ hits → ctrl.resolveContract hit.Id = false →
        ((isValidPublicId hit.UserCentricContract.Contract.Metadata.PublicId = false →
            processHit ctrl hit = DownloadAction.invalidPublicId
              hit.UserCentricContract.Contract.Metadata.PublicId)
         ∧ (isValidPublicId hit.UserCentricContract.Contract.Metadata.PublicId = true →
            ((ctrl.downloadContract hit.UserCentricContract.Contract.Metadata.PublicId =
                Except.ok () →
               processHit ctrl hit = DownloadAction.downloaded
                 hit.UserCentricContract.Contract.Metadata.PublicId)
             ∧ ∀ e, ctrl.downloadContract hit.UserCentricContract.Contract.Metadata.PublicId =
                 Except.error e →
               processHit ctrl hit = DownloadAction.downloadFailed
                 hit.UserCentricContract.Contract.Metadata.PublicId e))))
    ∧ (∀ env oResp d e, mergeOfficialData env oResp d = Except.error e →
        mergeSublocations d.Extensions.progression.Locations
          oResp.PlayerProfile.SubLocationData = Except.error e) := by
  refine ⟨?_, ?_, ?_⟩
  · intro pre hit post h
    subst h
    simp [processDownloads]
  · intro hit _ hres
    constructor
    · intro hinv
      simp [processHit, hres, hinv]
    · intro hval
      constructor
      · intro hok
        simp [processHit, hres, hval, hok]
      · intro e herr
        simp [processHit, hres, hval, herr]
  · intro env oResp d e h
    unfold mergeOfficialData at h
    cases hm : mergeSublocations d.Extensions.progression.Locations
        oResp.PlayerProfile.SubLocationData with
    | error e' =>
        rw [hm] at h
        simp at h
        subst h
        rfl
    | ok out =>
        rw [hm] at h
        simp at h

/-- A controller stub for the download-loop witness: nothing is known
locally, and the download of the sample public id fails. -/
def sampleController : Controller :=
  { resolveContract := fun _ => false
    downloadContract := fun publicId =>
      if publicId = "123456789012" then Except.error "ECONNRESET" else Except.ok () }

/-- C9 witness: a failing download is recorded and the loop still
processes the following hit, whose malformed public id is skipped. -/
theorem download_loop_spec_witness :
    processDownloads sampleController [sampleHit, sampleHit2] =
      processDownloads sampleController [] ++ processHit sampleController sampleHit ::
        processDownloads sampleController [sampleHit2]
    ∧ processHit sampleController sampleHit2 =
        DownloadAction.invalidPublicId "not-a-public-id" := by
  obtain ⟨h1, h2, -⟩ := download_loop_spec sampleController [sampleHit, sampleHit2]
  refine ⟨h1 [] sampleHit [sampleHit2] rfl, ?_⟩
  exact (h2 sampleHit2 (by simp) (by rfl)).1 (by decide)

/-- All challenges returned across the per-location responses, flattened
in location order (each location's array in order). -/
def challengesOf : List (String × HttpResponse (List FetchedChallenge)) → List FetchedChallenge
  | [] => []
  | (_, resp) :: rest => resp.data ++ challengesOf rest

theorem getKV_insertChallenges (m : List (String × FetchedChallenge))
    (cs : List FetchedChallenge) (k : String) :
    getKV (insertChallenges m cs) k =
      (cs.reverse.find? (fun c => c.Challenge.Id = k)).or (getKV m k) := by
  have h := getKV_foldl_setKV (fun (c : FetchedChallenge) => c.Challenge.Id)
    (fun c => c) cs m k
  cases hf : cs.reverse.find? (fun c => c.Challenge.Id = k) with
  | some c =>
      rw [hf] at h
      simpa using h
  | none =>
      rw [hf] at h
      simpa using h

theorem requestChallenges_getKV (rs : List (String × HttpResponse (List FetchedChallenge)))
    (m ch : List (String × FetchedChallenge)) (h : requestChallenges rs m = Except.ok ch)
    (k : String) :
    getKV ch k =
      ((challengesOf rs).reverse.find? (fun c => c.Challenge.Id = k)).or (getKV m k) := by
  induction rs generalizing m with
  | nil =>
      simp only [requestChallenges, Except.ok.injEq] at h
      subst h
      simp [challengesOf]
  | cons p rest ih =>
      obtain ⟨cid, resp⟩ := p
      by_cases hs : resp.status = 200
      · simp only [requestChallenges, hs, ne_eq, not_true_eq_false, if_false] at h
        rw [ih _ h, getKV_insertChallenges]
        simp only [challengesOf, List.reverse_append, List.find?_append]
        rw [Option.or_assoc]
      · simp [requestChallenges, hs] at h

/-- C3 counterexample: the snapshot carries five hit-category lists
(`ContractAttack`, `Arcade`, `MyHistory`, `MyContracts`, `MyPlaylist`),
not four. -/
theorem official_snapshot_four_lists_false : ¬ (hitCategoryTypes.length = 4) := by
  decide

/-- C3 (amended): when every required fetch succeeds, the aggregate
snapshot is exactly the profile, the player-profile, the challenge map
(keyed by challenge id, where the last write across the per-location
responses wins), the *five* hit-category lists, and the single-entry
contract-progression mapping for the one probed mission id. -/
theorem official_snapshot_shape (r : RemoteResponses)
    (gp : GetProfileBody) (pp : PlayerProfileData) (ch : List (String × FetchedChallenge))
    (ca ar mh mc mp : List Hit)
    (hu : r.userFound = true)
    (h1 : requestGetProfile r.getProfile = Except.ok gp)
    (h2 : requestPlayerProfile r.playerProfile = Except.ok pp)
    (h3 : requestChallenges r.challenges [] = Except.ok ch)
    (h4 : requestHitsCategoryAll r.contractAttack = Except.ok ca)
    (h5 : requestHitsCategoryAll r.arcade = Except.ok ar)
    (h6 : requestHitsCategoryAll r.myHistory = Except.ok mh)
    (h7 : requestHitsCategoryAll r.myContracts = Except.ok mc)
    (h8 : requestHitsCategoryAll r.myPlaylist = Except.ok mp) :
    getOfficialResponses r = Except.ok
      { GetProfile := gp, PlayerProfile := pp, Challenges := ch,
        ContractAttack := ca, Arcade := ar, MyHistory := mh,
        MyContracts := mc, MyPlaylist := mp,
        CPD := [(freelancerId, cpdSlot r.cpd)] }
    ∧ (∀ k, getKV ch k =
        (challengesOf r.challenges).reverse.find? (fun c => c.Challenge.Id = k))
    ∧ hitCategoryTypes.length = 5 := by
  refine ⟨?_, ?_, rfl⟩
  · unfold getOfficialResponses
    rw [hu]
    simp [h1, h2, h3, h4, h5, h6, h7, h8]
  · intro k
    rw [requestChallenges_getKV r.challenges [] ch h3 k]
    simp [getKV]

/-- A minimal successful `GetProfile` body for concrete runs. -/
def sampleGetProfileBody : GetProfileBody :=
  { identity :=
      { Id := Json.str "22ebbd4b-062f-4321-81b8-03f74ab161bc"
        LinkedAccounts := Json.obj []
        ETag := Json.null
        Gamertag := Json.str "Agent47"
        DevId := Json.null
        SteamId := Json.null
        StadiaId := Json.null
        EpicId := Json.null
        NintendoId := Json.null
        XboxLiveId := Json.null
        PSNAccountId := Json.null
        PSNOnlineId := Json.null }
    Extensions :=
      { achievements := Json.arr []
        friends := Json.arr []
        gameclient := Json.null
        gamepersistentdata :=
          { __stats := Json.null
            prologue := Json.obj [("proceed-intro", Json.bool true)]
            menudata :=
              { destinations := Json.obj []
                planning := Json.obj []
                newunlockables := Json.arr [] }
            PersistentBool := [("fa7b2877-3159-454a-82d3-422a0dd7e5da", Json.bool true)]
            IsFSPUser := Json.bool false
            VideoShown := Json.obj []
            EpilogueSeen := Json.obj [] }
        opportunityprogression := [("OPP_1", "token"), ("OPP_2", "")]
        progression :=
          { XPGain := Json.num 0
            secondsToNextDrop := Json.num 0
            secondsElapsed := Json.num 0
            LastCompletedChallenge := Json.str ""
            LastScore := Json.num 0
            TimeDropDelta := Json.num 0
            PlayerProfileXP :=
              { PreviouslySeenTotal := Json.num 0
                PreviouslySeenStaging := Json.null } } } }

/-- A minimal successful PlayerProfile page body. -/
def samplePlayerProfileBody : PlayerProfileBody :=
  { data :=
      { SubLocationData := []
        PlayerProfileXp := { Total := 0, Level := 1, Seasons := [] } } }

/-- A minimal `GetForPlay2` body. -/
def sampleCPDResponse : CPDResponse :=
  { ContractSessionId := "session-1"
    ContractProgressionData := [("Mastery", Json.num 5)] }

/-- A server that answers every request with status 200 and minimal
bodies. -/
def sampleRemoteResponses : RemoteResponses :=
  { userFound := true
    getProfile := { status := 200, data := sampleGetProfileBody }
    playerProfile := { status := 200, data := samplePlayerProfileBody }
    challenges := []
    contractAttack := []
    arcade := []
    myHistory := []
    myContracts := []
    myPlaylist := []
    cpd := { status := 200, data := sampleCPDResponse } }

/-- C3 witness: the concrete all-success run yields the full snapshot. -/
theorem official_snapshot_shape_witness :
    getOfficialResponses sampleRemoteResponses = Except.ok
      { GetProfile := sampleGetProfileBody
        PlayerProfile := samplePlayerProfileBody.data
        Challenges := []
        ContractAttack := []
        Arcade := []
        MyHistory := []
        MyContracts := []
        MyPlaylist := []
        CPD := [(freelancerId, cpdSlot sampleRemoteResponses.cpd)] } :=
  (official_snapshot_shape sampleRemoteResponses sampleGetProfileBody
    samplePlayerProfileBody.data [] [] [] [] [] []
    rfl rfl rfl rfl rfl rfl rfl rfl rfl).1

theorem requestGetProfile_ok_status (r : HttpResponse GetProfileBody)
    (gp : GetProfileBody) (h : requestGetProfile r = Except.ok gp) : r.status = 200 := by
  by_cases hs : r.status = 200
  · exact hs
  · simp [requestGetProfile, useService, hs] at h

theorem requestPlayerProfile_ok_status (r : HttpResponse PlayerProfileBody)
    (pp : PlayerProfileData) (h : requestPlayerProfile r = Except.ok pp) :
    r.status = 200 := by
  by_cases hs : r.status = 200
  · exact hs
  · simp [requestPlayerProfile, useService, hs] at h

theorem requestChallenges_ok_status (rs : List (String × HttpResponse (List FetchedChallenge)))
    (m ch : List (String × FetchedChallenge)) (h : requestChallenges rs m = Except.ok ch) :
    ∀ p ∈ rs, p.2.status = 200 := by
  induction rs generalizing m with
  | nil =>
      intro p hp
      simp at hp
  | cons q rest ih =>
      intro p hp
      obtain ⟨cid, resp⟩ := q
      by_cases hs : resp.status = 200
      · simp only [requestChallenges, hs, ne_eq, not_true_eq_false, if_false] at h
        rcases List.mem_cons.mp hp with rfl | hmem
        · exact hs
        · exact ih _ h p hmem
      · simp [requestChallenges, hs] at h

theorem requestHitsCategoryAll_ok_status (l : List (HttpResponse HitsCategoryBody))
    (hits : List Hit) (h : requestHitsCategoryAll l = Except.ok hits) :
    ∀ page ∈ consumedPages l, page.status = 200 := by
  induction l generalizing hits with
  | nil =>
      intro page hp
      simp [consumedPages] at hp
  | cons r rest ih =>
      intro page hp
      by_cases hs : r.status = 200
      · by_cases hm : r.data.data.Data.HasMore
        · simp only [requestHitsCategoryAll, requestHitsCategory, useService, hs, if_true,
            hm] at h
          cases hr : requestHitsCategoryAll rest with
          | error e =>
              rw [hr] at h
              simp at h
          | ok tail =>
              simp only [consumedPages, hs, hm, and_self, if_true] at hp
              rcases List.mem_cons.mp hp with rfl | hmem
              · exact hs
              · exact ih tail hr page hmem
        · simp [consumedPages, hs, hm] at hp
          subst hp
          exact hs
      · simp [requestHitsCategoryAll, requestHitsCategory, useService, hs] at h

theorem cpdSlot_none_of_bad_status (r : HttpResponse CPDResponse)
    (h : r.status ≠ 200) : cpdSlot r = none := by
  simp [cpdSlot, requestGetForPlay2, useService, h]

theorem getOfficialResponses_ok_inversion (r : RemoteResponses) (s : OfficialResponses)
    (h : getOfficialResponses r = Except.ok s) :
    r.userFound = true
    ∧ r.getProfile.status = 200
    ∧ r.playerProfile.status = 200
    ∧ (∀ p ∈ r.challenges, p.2.status = 200)
    ∧ (∀ cat ∈ [r.contractAttack, r.arcade, r.myHistory, r.myContracts, r.myPlaylist],
        ∀ page ∈ consumedPages cat, page.status = 200)
    ∧ s.CPD = [(freelancerId, cpdSlot r.cpd)] := by
  unfold getOfficialResponses at h
  by_cases hu : r.userFound
  case neg => simp [hu] at h
  rw [if_neg (by simpa using hu)] at h
  cases hgp : requestGetProfile r.getProfile with
  | error e => simp [hgp] at h
  | ok gp =>
  cases hpp : requestPlayerProfile r.playerProfile with
  | error e => simp [hgp, hpp] at h
  | ok pp =>
  cases hch : requestChallenges r.challenges [] with
  | error e => simp [hgp, hpp, hch] at h
  | ok ch =>
  cases hca : requestHitsCategoryAll r.contractAttack with
  | error e => simp [hgp, hpp, hch, hca] at h
  | ok ca =>
  cases har : requestHitsCategoryAll r.arcade with
  | error e => simp [hgp, hpp, hch, hca, har] at h
  | ok ar =>
  cases hmh : requestHitsCategoryAll r.myHistory with
  | error e => simp [hgp, hpp, hch, hca, har, hmh] at h
  | ok mh =>
  cases hmc : requestHitsCategoryAll r.myContracts with
  | error e => simp [hgp, hpp, hch, hca, har, hmh, hmc] at h
  | ok mc =>
  cases hmp : requestHitsCategoryAll r.myPlaylist with
  | error e => simp [hgp, hpp, hch, hca, har, hmh, hmc, hmp] at h
  | ok mp =>
  rw [hgp, hpp, hch, hca, har, hmh, hmc, hmp] at h
  have hrec :
      ({ GetProfile := gp, PlayerProfile := pp, Challenges := ch,
         ContractAttack := ca, Arcade := ar, MyHistory := mh,
         MyContracts := mc, MyPlaylist := mp,
         CPD := [(freelancerId, cpdSlot r.cpd)] } : OfficialResponses) = s := by
    injection h
  refine ⟨by simpa using hu, requestGetProfile_ok_status _ _ hgp,
    requestPlayerProfile_ok_status _ _ hpp,
    requestChallenges_ok_status _ _ _ hch, ?_, ?_⟩
  · intro cat hcat page hp
    simp only [List.mem_cons, List.not_mem_nil, or_false] at hcat
    rcases hcat with rfl | rfl | rfl | rfl | rfl
    · exact requestHitsCategoryAll_ok_status _ _ hca page hp
    · exact requestHitsCategoryAll_ok_status _ _ har page hp
    · exact requestHitsCategoryAll_ok_status _ _ hmh page hp
    · exact requestHitsCategoryAll_ok_status _ _ hmc page hp
    · exact requestHitsCategoryAll_ok_status _ _ hmp page hp
  · rw [← hrec]

/-- C4: a non-success status on any required fetch — the profile, the
player-profile, any per-location challenge request, or any consumed page
of the five hit categories — fails the whole carryover with an error; the
contract-progression probe is the exception: its failure leaves an absent
CPD slot in the snapshot, the run continues, and the absent slot merges
nothing into the profile's CPD data. -/
theorem fetch_error_handling (r : RemoteResponses) :
    ((r.getProfile.status ≠ 200 ∨ r.playerProfile.status ≠ 200
      ∨ (∃ p, p ∈ r.challenges ∧ p.2.status ≠ 200)
      ∨ (∃ cat, cat ∈ [r.contractAttack, r.arcade, r.myHistory, r.myContracts, r.myPlaylist]
          ∧ ∃ page, page ∈ consumedPages cat ∧ page.status ≠ 200)) →
      ∃ e, getOfficialResponses r = Except.error e
        ∧ ∀ env d, carryOverUserData env r d = Except.error e)
    ∧ (r.cpd.status ≠ 200 → ∀ s, getOfficialResponses r = Except.ok s →
        s.CPD = [(freelancerId, none)])
    ∧ (∀ cpdm, mergeCPD cpdm [(freelancerId, none)] = cpdm)
    ∧ (∀ env oResp d, oResp.CPD = [(freelancerId, none)] →
        ∀ out, mergeOfficialData env oResp d = Except.ok out →
          out.1.Extensions.CPD = d.Extensions.CPD) := by
  refine ⟨?_, ?_, ?_, ?_⟩
  · intro hbad
    cases hres : getOfficialResponses r with
    | error e =>
        refine ⟨e, rfl, ?_⟩
        intro env d
        unfold carryOverUserData
        rw [hres]
    | ok s =>
        exfalso
        obtain ⟨-, hgp, hpp, hch, hcats, -⟩ := getOfficialResponses_ok_inversion r s hres
        rcases hbad with hb | hb | ⟨p, hp, hb⟩ | ⟨cat, hcat, page, hpage, hb⟩
        · exact hb hgp
        · exact hb hpp
        · exact hb (hch p hp)
        · exact hb (hcats cat hcat page hpage)
  · intro hcpd s hok
    obtain ⟨-, -, -, -, -, hCPD⟩ := getOfficialResponses_ok_inversion r s hok
    rw [hCPD, cpdSlot_none_of_bad_status r.cpd hcpd]
  · intro cpdm
    rfl
  · intro env oResp d hCPD out hok
    unfold mergeOfficialData at hok
    cases hm : mergeSublocations d.Extensions.progression.Locations
        oResp.PlayerProfile.SubLocationData with
    | error e =>
        rw [hm] at hok
        simp at hok
    | ok newLocations =>
        rw [hm] at hok
        simp only [Except.ok.injEq] at hok
        rw [← hok]
        simp only [hCPD]
        rfl

/-- A server whose `GetProfile` endpoint answers with status 500. -/
def badRemoteResponses : RemoteResponses :=
  { sampleRemoteResponses with
      getProfile := { status := 500, data := sampleGetProfileBody } }

/-- C4 witness: the 500 on `GetProfile` makes the whole fetch phase fail. -/
theorem fetch_error_handling_witness :
    ∃ e, getOfficialResponses badRemoteResponses = Except.error e := by
  obtain ⟨e, h1, -⟩ := (fetch_error_handling badRemoteResponses).1 (Or.inl (by decide))
  exact ⟨e, h1⟩

end Peacock
